import Mathlib

/-!
# lua-sense, `utils.c`: the `sleep` binding and its module registrar

The C file defines three things: `l_sleep` (read one number from the Lua
stack, hand it to `usleep`, return no results), the registration array
`utils`, and the loader entry point `luaopen_utils`.

Everything else the file touches belongs to its two collaborators, the Lua
C API (`luaL_checknumber`, `lua_newtable`, `luaL_setfuncs`) and the C
library (`usleep`).  They are modelled after the Lua reference manual and
the C standard as far as this file drives them; whatever those leave to the
platform is a field of `Platform`.
-/

namespace LuaSense

deriving instance DecidableEq for Except

/-! ## Values of the host runtime -/

/-- The value of a `lua_Number`, a C `double`: a finite value is given by the
rational it denotes exactly, next to the two infinities and NaN. -/
inductive LuaNumber where
  | finite (q : ℚ)
  | posInf
  | negInf
  | nan
  deriving DecidableEq

/-- Addresses of C functions: the one this module defines, and any other. -/
inductive CFunction where
  | l_sleep
  | other (addr : Nat)
  deriving DecidableEq

/-- A Lua value as it sits in a stack slot.  Collectable objects are
references into the heap.  `integer` is the integer subtype of numbers that
Lua 5.3 and later have; a Lua 5.2 host never produces it. -/
inductive LuaValue where
  | nil
  | boolean (b : Bool)
  | lightuserdata (p : Nat)
  | number (n : LuaNumber)
  | integer (i : Int)
  | string (s : String)
  | table (ref : Nat)
  | cfunction (f : CFunction)
  | luafunction (ref : Nat)
  | userdata (ref : Nat)
  | thread (ref : Nat)
  deriving DecidableEq

/-- The type tags `lua_type` answers with (`LUA_TNONE` .. `LUA_TTHREAD`). -/
inductive LuaType where
  | TNONE
  | TNIL
  | TBOOLEAN
  | TLIGHTUSERDATA
  | TNUMBER
  | TSTRING
  | TTABLE
  | TFUNCTION
  | TUSERDATA
  | TTHREAD
  deriving DecidableEq

/-- The error `luaL_checknumber` raises through `luaL_argerror`: which
argument, the type that was expected and the type that was found.  The text
of the message, which the host builds from its debug information, is not
modelled. -/
structure LuaError where
  arg : Int
  expected : LuaType
  got : LuaType
  deriving DecidableEq

/-- A table object: its metatable, if any, and its non-nil fields. -/
structure Table where
  metatable : Option Nat
  entries : List (LuaValue × LuaValue)
  deriving DecidableEq

/-- The part of a `lua_State` a C function sees, plus the process's record of
waits.  `stack` is the frame of the running C function, index 1 first and the
top last; `heap` holds the tables, a reference being a position in it;
`waits` lists, oldest first, the durations `usleep` has been called with. -/
structure lua_State where
  stack : List LuaValue
  heap : List Table
  waits : List Nat
  deriving DecidableEq

/-- What the C standard and the host leave to the platform.

* `usecBits`: the width of `useconds_t`, the unsigned type `usleep` takes
  (`unsigned int`, 32 bits, with glibc).
* `convUndefined`: what converting a `double` to `useconds_t` produces when
  the truncated value does not fit, a case C leaves undefined.
* `str2number`: the host's conversion of a string to a number
  (`lua_stringtonumber`); `none` for a string that is not a numeral.
* `roundInt`: the `double` nearest an integer too large to be one exactly. -/
structure Platform where
  usecBits : Nat
  convUndefined : LuaNumber → Nat
  str2number : String → Option LuaNumber
  roundInt : Int → LuaNumber

/-! ## The Lua C API, as far as `utils.c` uses it -/

/-- The slot an acceptable stack index names: positive indices count from the
bottom of the frame, negative ones from the top.  `none` is the host's
"no value" (an index above the top); pseudo-indices are not modelled. -/
def index2value (L : lua_State) (idx : Int) : Option LuaValue :=
  if 0 < idx then L.stack.get? (idx.toNat - 1)
  else if idx < 0 ∧ (-idx).toNat ≤ L.stack.length then
    L.stack.get? (L.stack.length - (-idx).toNat)
  else none

/-- Host call `lua_type`: the type tag of the value at an index. -/
def lua_type (L : lua_State) (idx : Int) : LuaType :=
  match index2value L idx with
  | none => .TNONE
  | some .nil => .TNIL
  | some (.boolean _) => .TBOOLEAN
  | some (.lightuserdata _) => .TLIGHTUSERDATA
  | some (.number _) => .TNUMBER
  | some (.integer _) => .TNUMBER
  | some (.string _) => .TSTRING
  | some (.table _) => .TTABLE
  | some (.cfunction _) => .TFUNCTION
  | some (.luafunction _) => .TFUNCTION
  | some (.userdata _) => .TUSERDATA
  | some (.thread _) => .TTHREAD

/-- Conversion of a Lua integer to `lua_Number`: exact up to 2^53 in
magnitude, rounded by the platform beyond. -/
def cast_num (P : Platform) (i : Int) : LuaNumber :=
  if -(2 : Int) ^ 53 ≤ i ∧ i ≤ (2 : Int) ^ 53 then .finite (i : ℚ) else P.roundInt i

/-- The coercion of a value to a number: floats are themselves, integers are
cast, strings go through the host's numeral reader, nothing else converts. -/
def tonumber (P : Platform) : LuaValue → Option LuaNumber
  | .number n => some n
  | .integer i => some (cast_num P i)
  | .string s => P.str2number s
  | _ => none

/-- Host call `lua_tonumberx`: the number at an index and whether there was one. -/
def lua_tonumberx (P : Platform) (L : lua_State) (idx : Int) : Option LuaNumber :=
  match index2value L idx with
  | some v => tonumber P v
  | none => none

/-- Host call `luaL_checknumber`: the number at an index, or the argument error
"number expected, got ..." raised on the host's error path. -/
def luaL_checknumber (P : Platform) (L : lua_State) (arg : Int) :
    Except LuaError LuaNumber :=
  match lua_tonumberx P L arg with
  | some d => .ok d
  | none => .error ⟨arg, .TNUMBER, lua_type L arg⟩

/-- Host call `lua_newtable`: allocate an empty table without metatable and
push it.  Memory and stack space are taken to be unbounded, so the call
succeeds. -/
def lua_newtable (L : lua_State) : lua_State :=
  { L with stack := L.stack ++ [.table L.heap.length],
           heap := L.heap ++ [⟨none, []⟩] }

/-- Host call `lua_pushcclosure` with no upvalues: push the C function. -/
def lua_pushcfunction (L : lua_State) (f : CFunction) : lua_State :=
  { L with stack := L.stack ++ [.cfunction f] }

/-- Raw lookup in a table; an absent key reads as nil. -/
def rawget (t : Table) (k : LuaValue) : LuaValue :=
  match t.entries.find? (fun e => decide (e.1 = k)) with
  | some e => e.2
  | none => .nil

/-- Raw assignment in a table; assigning nil removes the key. -/
def rawset (t : Table) (k v : LuaValue) : Table :=
  let others := t.entries.filter (fun e => decide (e.1 ≠ k))
  { t with entries := if v = .nil then others else others ++ [(k, v)] }

/-- The keys a table holds. -/
def Table.keys (t : Table) : List LuaValue :=
  t.entries.map Prod.fst

/-- Replace the table a reference points to. -/
def heapStore (heap : List Table) (ref : Nat) (t : Table) : List Table :=
  heap.set ref t

/-- Ways a host call can leave what is modelled: the registration loop ran
off the end of its array, or a call needed a part of the host that is not
modelled (metamethods, closures with upvalues). -/
inductive Fault where
  | readPastEnd
  | notModelled
  deriving DecidableEq

/-- Host call `lua_setfield(L, idx, k)`: `t[k] = v` for the table `t` at `idx` and the
value `v` on top, which it pops.  With no metatable on `t` this is a raw
assignment; indexing anything else (an error, or a metamethod call) is not
modelled. -/
def lua_setfield (L : lua_State) (idx : Int) (k : String) : Except Fault lua_State :=
  match index2value L idx, L.stack.getLast? with
  | some (.table r), some v =>
    match L.heap.get? r with
    | some t =>
      if t.metatable = none then
        .ok { L with stack := L.stack.dropLast,
                     heap := heapStore L.heap r (rawset t (.string k) v) }
      else .error .notModelled
    | none => .error .notModelled
  | _, _ => .error .notModelled

/-- An element of a registration array: `luaL_Reg`, a name and a function,
both null in the sentinel. -/
structure luaL_Reg where
  name : Option String
  func : Option CFunction
  deriving DecidableEq

/-- The loop of `luaL_setfuncs` for `nup = 0`, over the elements from the
pointer `l` to the end of the array: stop at the first null name, otherwise
push the function and store it under its name in the table below it.  The
result carries the number of functions registered.  Running out of elements
means the loop read past the end of the array. -/
def setfuncsLoop : List luaL_Reg → lua_State → Except Fault (Nat × lua_State)
  | [], _ => .error .readPastEnd
  | r :: rest, L =>
    match r.name with
    | none => .ok (0, L)
    | some name =>
      match r.func with
      | none => .error .notModelled
      | some f =>
        match lua_setfield (lua_pushcfunction L f) (-2) name with
        | .error e => .error e
        | .ok L1 =>
          match setfuncsLoop rest L1 with
          | .error e => .error e
          | .ok (n, L2) => .ok (n + 1, L2)

/-- Host call `luaL_setfuncs(L, l, nup)`: register the functions of `l` in the table on
top of the stack.  Closures with upvalues (`nup > 0`) are not modelled. -/
def luaL_setfuncs (L : lua_State) (l : List luaL_Reg) (nup : Nat) :
    Except Fault (Nat × lua_State) :=
  if nup = 0 then setfuncsLoop l L else .error .notModelled

/-! ## The C library -/

/-- Conversion of a `double` to an integer in C: the fractional part is
discarded, that is, truncation toward zero. -/
def truncToInt (q : ℚ) : Int :=
  if 0 ≤ q then ⌊q⌋ else ⌈q⌉

/-- The implicit conversion at `usleep(d)`, from `double` to `useconds_t`:
the truncated value when `useconds_t` can represent it, otherwise whatever
the platform makes of it, as a `useconds_t`. -/
def double_to_useconds (P : Platform) (d : LuaNumber) : Nat :=
  match d with
  | .finite q =>
    if 0 ≤ truncToInt q ∧ truncToInt q < (2 : Int) ^ P.usecBits then (truncToInt q).toNat
    else P.convUndefined d % 2 ^ P.usecBits
  | _ => P.convUndefined d % 2 ^ P.usecBits

/-- Library call `usleep(usec)`: ask the operating system to suspend the thread for `usec`
microseconds.  The request is recorded; the time that passes is not
modelled. -/
def usleep (usec : Nat) (L : lua_State) : lua_State :=
  { L with waits := L.waits ++ [usec] }

/-! ## `utils.c` -/

/-- The function `l_sleep`: `double d = luaL_checknumber(L, 1); usleep(d); return 0;`.
The first component is the number of results, or the error raised; the
second is the state the call leaves. -/
def l_sleep (P : Platform) (L : lua_State) : Except LuaError Nat × lua_State :=
  match luaL_checknumber P L 1 with
  | .error e => (.error e, L)
  | .ok d => (.ok 0, usleep (double_to_useconds P d) L)

/-- The array `utils`, of declared length 2: `{"sleep", l_sleep}`, `{NULL, NULL}`. -/
def utils : List luaL_Reg :=
  [⟨some "sleep", some .l_sleep⟩, ⟨none, none⟩]

/-- The function `luaopen_utils`: `lua_newtable(L); luaL_setfuncs(L, utils, 0); return 1;`.
The result is the number of results and the state left. -/
def luaopen_utils (L : lua_State) : Except Fault (Nat × lua_State) :=
  match luaL_setfuncs (lua_newtable L) utils 0 with
  | .ok (_, L1) => .ok (1, L1)
  | .error e => .error e

/-- The table `luaopen_utils` builds: `sleep`, bound to `l_sleep`, and nothing
else. -/
def moduleTable : Table :=
  ⟨none, [(.string "sleep", .cfunction .l_sleep)]⟩

/-! ## A concrete platform -/

/-- What gcc on x86-64 Linux does for an out-of-range conversion: convert to
a 64-bit integer and keep the low 32 bits; the 64-bit conversion of a value
that does not fit, of an infinity or of NaN is `0x8000000000000000`. -/
def x86_64_conv : LuaNumber → Nat
  | .finite q =>
    if -(2 : Int) ^ 63 ≤ truncToInt q ∧ truncToInt q < (2 : Int) ^ 63 then
      (truncToInt q % (2 : Int) ^ 32).toNat
    else 0
  | _ => 0

/-- Value of a string of decimal digits, `none` if another character occurs. -/
def digitsValue : List Char → Nat → Option Nat
  | [], acc => some acc
  | c :: cs, acc =>
    if c.isDigit then digitsValue cs (10 * acc + (c.toNat - 48)) else none

/-- A numeral reader that knows unsigned decimal integers only. -/
def decimalReader (s : String) : Option LuaNumber :=
  match s.data with
  | [] => none
  | cs => (digitsValue cs 0).map (fun n => LuaNumber.finite (n : ℚ))

/-- A sample platform for evaluating the definitions: 32-bit `useconds_t`,
x86-64 conversions, and the decimal numeral reader. -/
def samplePlatform : Platform where
  usecBits := 32
  convUndefined := x86_64_conv
  str2number := decimalReader
  roundInt := fun i => .finite (i : ℚ)

/-- A number is negative: a finite value below zero, or minus infinity. -/
def LuaNumber.isNegative : LuaNumber → Bool
  | .finite q => decide (q < 0)
  | .negInf => true
  | _ => false

/-- With a number at index 1, `l_sleep` sleeps for its conversion and returns
no results. -/
theorem l_sleep_of_number (P : Platform) (L : lua_State) (d : LuaNumber)
    (h : lua_tonumberx P L 1 = some d) :
    l_sleep P L = (.ok 0, usleep (double_to_useconds P d) L) := by
  simp [l_sleep, luaL_checknumber, h]

/-- Without a number at index 1, `l_sleep` raises the argument error and leaves
the state as it found it. -/
theorem l_sleep_of_no_number (P : Platform) (L : lua_State)
    (h : lua_tonumberx P L 1 = none) :
    l_sleep P L = (.error ⟨1, .TNUMBER, lua_type L 1⟩, L) := by
  simp [l_sleep, luaL_checknumber, h]

/-- A non-negative value whose integer part fits `useconds_t` converts to its
floor. -/
theorem double_to_useconds_floor (P : Platform) (q : ℚ) (h0 : 0 ≤ q)
    (h1 : q < 2 ^ P.usecBits) :
    double_to_useconds P (.finite q) = ⌊q⌋₊ := by
  have ht : truncToInt q = ⌊q⌋ := by simp [truncToInt, h0]
  have hnn : (0 : Int) ≤ ⌊q⌋ := Int.floor_nonneg.mpr h0
  have hlt : ⌊q⌋ < (2 : Int) ^ P.usecBits := by
    rw [Int.floor_lt]
    push_cast
    exact h1
  simp only [double_to_useconds, ht]
  rw [if_pos ⟨hnn, hlt⟩]
  exact Int.floor_toNat q

/-- Index -2 names the slot just below the top. -/
theorem index2value_below_top (s : List LuaValue) (heap : List Table) (waits : List Nat)
    (a b : LuaValue) :
    index2value ⟨s ++ [a, b], heap, waits⟩ (-2) = some a := by
  have hlen : (s ++ [a, b]).length - 2 = s.length := by simp
  have hget : (s ++ [a, b])[s.length]? = some a := by
    rw [List.getElem?_append_right (Nat.le_refl _)]
    simp
  simp only [index2value]
  rw [if_neg (by decide), if_pos (by simp)]
  simp only [List.get?_eq_getElem?]
  show (s ++ [a, b])[(s ++ [a, b]).length - 2]? = some a
  rw [hlen, hget]

/-- A reference just past the heap reads the table appended there. -/
theorem heap_get_append (heap : List Table) (t : Table) :
    (heap ++ [t]).get? heap.length = some t := by
  simp

/-- Storing at the reference just past the old heap replaces the appended
table. -/
theorem heapStore_append (heap : List Table) (t u : Table) :
    heapStore (heap ++ [t]) heap.length u = heap ++ [u] := by
  simp [heapStore, List.set_append]

/-- On a table at the top of the stack that has no metatable, the loop over
`utils` registers one function and stops at the sentinel. -/
theorem luaL_setfuncs_utils (L : lua_State) :
    luaL_setfuncs (lua_newtable L) utils 0 =
      .ok (1, { stack := L.stack ++ [.table L.heap.length],
                heap := L.heap ++ [moduleTable],
                waits := L.waits }) := by
  have hidx := index2value_below_top L.stack (L.heap ++ [⟨none, []⟩]) L.waits
    (.table L.heap.length) (.cfunction .l_sleep)
  simp only [luaL_setfuncs, utils, setfuncsLoop, lua_pushcfunction, lua_newtable, if_true,
    List.append_assoc, List.singleton_append]
  simp only [lua_setfield, hidx, heap_get_append, heapStore_append]
  simp [rawset, moduleTable, heapStore_append]

/-- The whole of `luaopen_utils`: one result, a new table pushed, the heap
extended by that table, nothing else touched. -/
theorem luaopen_utils_eq (L : lua_State) :
    luaopen_utils L =
      .ok (1, { stack := L.stack ++ [.table L.heap.length],
                heap := L.heap ++ [moduleTable],
                waits := L.waits }) := by
  simp [luaopen_utils, luaL_setfuncs_utils]

/-- Index -1 names the top of the stack. -/
theorem index2value_top (s : List LuaValue) (heap : List Table) (waits : List Nat)
    (a : LuaValue) :
    index2value ⟨s ++ [a], heap, waits⟩ (-1) = some a := by
  have hlen : (s ++ [a]).length - 1 = s.length := by simp
  have hget : (s ++ [a])[s.length]? = some a := by
    rw [List.getElem?_append_right (Nat.le_refl _)]
    simp
  simp only [index2value]
  rw [if_neg (by decide), if_pos (by simp)]
  simp only [List.get?_eq_getElem?]
  show (s ++ [a])[(s ++ [a]).length - 1]? = some a
  rw [hlen, hget]

/-- Of two tables appended to a heap, the first sits at the old length. -/
theorem heap_get_first_of_two (heap : List Table) (a b : Table) :
    (heap ++ [a, b]).get? heap.length = some a := by
  rw [List.get?_eq_getElem?, List.getElem?_append_right (Nat.le_refl _)]
  simp

/-- Of two tables appended to a heap, the second sits one past the old length. -/
theorem heap_get_second_of_two (heap : List Table) (a b : Table) :
    (heap ++ [a, b]).get? (heap.length + 1) = some b := by
  rw [List.get?_eq_getElem?, List.getElem?_append_right (Nat.le_succ _)]
  simp

/-- Storing at the old length replaces the first of two appended tables. -/
theorem heapStore_first_of_two (heap : List Table) (a b t : Table) :
    heapStore (heap ++ [a, b]) heap.length t = heap ++ [t, b] := by
  simp [heapStore, List.set_append]

/-- Storing one past the old length replaces the second of two appended
tables. -/
theorem heapStore_second_of_two (heap : List Table) (a b t : Table) :
    heapStore (heap ++ [a, b]) (heap.length + 1) t = heap ++ [a, t] := by
  simp [heapStore, List.set_append]

/-- The call `lua_setfield` never reports a read past the end of an array. -/
theorem lua_setfield_ne_readPastEnd (L : lua_State) (idx : Int) (k : String) :
    lua_setfield L idx k ≠ .error .readPastEnd := by
  unfold lua_setfield
  split
  · split
    · split <;> simp
    · simp
  · simp

/-- Index -2 of a frame with one more value pushed is index -1 of the frame. -/
theorem index2value_under_pushed (s : List LuaValue) (heap : List Table) (waits : List Nat)
    (a : LuaValue) :
    index2value ⟨s ++ [a], heap, waits⟩ (-2) = index2value ⟨s, heap, waits⟩ (-1) := by
  have e2 : (-(-2 : Int)).toNat = 2 := by decide
  have e1 : (-(-1 : Int)).toNat = 1 := by decide
  have n2 : ¬ (0 : Int) < -2 := by decide
  have n1 : ¬ (0 : Int) < -1 := by decide
  have m2 : (-2 : Int) < 0 := by decide
  have m1 : (-1 : Int) < 0 := by decide
  simp only [index2value, e1, e2, if_neg n2, if_neg n1, m2, m1, true_and]
  by_cases h : 1 ≤ s.length
  · have h2 : 2 ≤ (s ++ [a]).length := by
      rw [List.length_append, List.length_singleton]
      omega
    have hlen : (s ++ [a]).length - 2 = s.length - 1 := by
      rw [List.length_append, List.length_singleton]
      omega
    rw [if_pos h2, if_pos h, hlen]
    simp only [List.get?_eq_getElem?]
    rw [List.getElem?_append_left (by omega)]
  · have h2 : ¬ 2 ≤ (s ++ [a]).length := by
      rw [List.length_append, List.length_singleton]
      omega
    rw [if_neg h2, if_neg h]

/-- Pushing a C function and storing it with `lua_setfield(L, -2, k)`: when the
top of the frame is a table without metatable, that table gets the function
under `k` and the frame is as before; otherwise the call is not modelled. -/
theorem lua_setfield_pushed (L : lua_State) (f : CFunction) (k : String) :
    lua_setfield (lua_pushcfunction L f) (-2) k =
      (match index2value L (-1) with
       | some (.table r) =>
         (match L.heap.get? r with
          | some t =>
            if t.metatable = none then
              .ok { L with heap := heapStore L.heap r (rawset t (.string k) (.cfunction f)) }
            else .error .notModelled
          | none => .error .notModelled)
       | _ => .error .notModelled) := by
  have hidx : index2value (lua_pushcfunction L f) (-2) = index2value L (-1) :=
    index2value_under_pushed L.stack L.heap L.waits (.cfunction f)
  have hlast : (lua_pushcfunction L f).stack.getLast? = some (.cfunction f) := by
    simp [lua_pushcfunction]
  have hdrop : (lua_pushcfunction L f).stack.dropLast = L.stack := by
    simp [lua_pushcfunction]
  have hheap : (lua_pushcfunction L f).heap = L.heap := rfl
  have hwaits : (lua_pushcfunction L f).waits = L.waits := rfl
  unfold lua_setfield
  rw [hidx, hlast, hdrop, hheap, hwaits]
  cases hv : index2value L (-1) with
  | none => rfl
  | some v =>
    cases v <;> rfl

/-- C1: when the value at stack index 1 is coercible to a number, `l_sleep`
raises no error, returns 0 results, leaves stack and heap untouched (it pushes
nothing) and extends the record of `usleep` calls by exactly one call. -/
theorem l_sleep_success (P : Platform) (L : lua_State) (v : LuaValue) (d : LuaNumber)
    (hv : index2value L 1 = some v) (hd : tonumber P v = some d) :
    (l_sleep P L).1 = .ok 0 ∧ (l_sleep P L).2.stack = L.stack ∧
      (l_sleep P L).2.heap = L.heap ∧
      (l_sleep P L).2.waits = L.waits ++ [double_to_useconds P d] ∧
      (l_sleep P L).2.waits.length = L.waits.length + 1 := by
  have h : lua_tonumberx P L 1 = some d := by simp [lua_tonumberx, hv, hd]
  rw [l_sleep_of_number P L d h]
  simp [usleep]

/-- Witness for C1: `sleep(250)` on an otherwise empty frame. -/
theorem l_sleep_success_witness :
    index2value ⟨[.number (.finite 250)], [], []⟩ 1 = some (.number (.finite 250)) ∧
      tonumber samplePlatform (.number (.finite 250)) = some (.finite 250) ∧
      (l_sleep samplePlatform ⟨[.number (.finite 250)], [], []⟩).1 = .ok 0 ∧
      (l_sleep samplePlatform ⟨[.number (.finite 250)], [], []⟩).2.waits = [250] := by
  have h := l_sleep_success samplePlatform ⟨[.number (.finite 250)], [], []⟩
    (.number (.finite 250)) (.finite 250) (by decide) (by decide)
  exact ⟨by decide, by decide, h.1, by decide⟩

/-- C2: when the first argument is missing, or is a value that does not coerce
to a number, `l_sleep` ends with the argument error of `luaL_checknumber`
(argument 1, number expected) and `usleep` is not called: the record of waits,
like the rest of the state, is as before. -/
theorem l_sleep_bad_argument (P : Platform) (L : lua_State)
    (h : index2value L 1 = none ∨ ∃ v, index2value L 1 = some v ∧ tonumber P v = none) :
    (l_sleep P L).1 = .error ⟨1, .TNUMBER, lua_type L 1⟩ ∧ (l_sleep P L).2 = L ∧
      (l_sleep P L).2.waits = L.waits := by
  have hn : lua_tonumberx P L 1 = none := by
    rcases h with h | ⟨v, hv, hd⟩
    · simp [lua_tonumberx, h]
    · simp [lua_tonumberx, hv, hd]
  rw [l_sleep_of_no_number P L hn]
  simp

/-- Witness for C2: `sleep()` with no argument, and `sleep("abc")`. -/
theorem l_sleep_bad_argument_witness :
    (index2value ⟨[], [], [3]⟩ 1 = none ∧
      (l_sleep samplePlatform ⟨[], [], [3]⟩).1 = .error ⟨1, .TNUMBER, .TNONE⟩ ∧
      (l_sleep samplePlatform ⟨[], [], [3]⟩).2.waits = [3]) ∧
    (tonumber samplePlatform (.string "abc") = none ∧
      (l_sleep samplePlatform ⟨[.string "abc"], [], [3]⟩).1 = .error ⟨1, .TNUMBER, .TSTRING⟩ ∧
      (l_sleep samplePlatform ⟨[.string "abc"], [], [3]⟩).2.waits = [3]) := by
  have h1 := l_sleep_bad_argument samplePlatform ⟨[], [], [3]⟩ (Or.inl (by decide))
  have h2 := l_sleep_bad_argument samplePlatform ⟨[.string "abc"], [], [3]⟩
    (Or.inr ⟨.string "abc", by decide, by decide⟩)
  exact ⟨⟨by decide, h1.1, h1.2.2⟩, ⟨by decide, h2.1, h2.2.2⟩⟩

/-- C3: for a numeric argument `d` with `0 ≤ d < 2^32`, on a platform whose
`useconds_t` has at least 32 bits, the duration `l_sleep` passes to `usleep` is
`⌊d⌋` microseconds, unscaled. -/
theorem l_sleep_requests_floor (P : Platform) (L : lua_State) (q : ℚ)
    (hbits : 32 ≤ P.usecBits) (h : lua_tonumberx P L 1 = some (.finite q))
    (h0 : 0 ≤ q) (h1 : q < 2 ^ 32) :
    (l_sleep P L).1 = .ok 0 ∧ (l_sleep P L).2.waits = L.waits ++ [⌊q⌋₊] := by
  have hle : (2 : ℚ) ^ 32 ≤ 2 ^ P.usecBits := pow_le_pow_right₀ (by norm_num) hbits
  have hconv := double_to_useconds_floor P q h0 (lt_of_lt_of_le h1 hle)
  rw [l_sleep_of_number P L _ h, hconv]
  simp [usleep]

/-- Witness for C3: `sleep(50000)` asks for 50000 microseconds, and
`sleep(2.5)` for 2. -/
theorem l_sleep_requests_floor_witness :
    (32 ≤ samplePlatform.usecBits ∧
      lua_tonumberx samplePlatform ⟨[.number (.finite 50000)], [], []⟩ 1 =
        some (.finite 50000) ∧
      (0 : ℚ) ≤ 50000 ∧ (50000 : ℚ) < 2 ^ 32 ∧
      (l_sleep samplePlatform ⟨[.number (.finite 50000)], [], []⟩).2.waits = [50000]) ∧
    (lua_tonumberx samplePlatform ⟨[.number (.finite (mkRat 5 2))], [], []⟩ 1 =
        some (.finite (mkRat 5 2)) ∧
      (0 : ℚ) ≤ mkRat 5 2 ∧ mkRat 5 2 < 2 ^ 32 ∧
      (l_sleep samplePlatform ⟨[.number (.finite (mkRat 5 2))], [], []⟩).2.waits = [2]) := by
  have h1 := l_sleep_requests_floor samplePlatform ⟨[.number (.finite 50000)], [], []⟩ 50000
    (by decide) (by decide) (by norm_num) (by norm_num)
  have h2 := l_sleep_requests_floor samplePlatform ⟨[.number (.finite (mkRat 5 2))], [], []⟩
    (mkRat 5 2) (by decide) (by decide) (by decide) (by decide)
  have e1 : ⌊(50000 : ℚ)⌋₊ = 50000 := by decide
  have e2 : ⌊mkRat 5 2⌋₊ = 2 := by decide
  rw [e1] at h1
  rw [e2] at h2
  exact ⟨⟨by decide, by decide, by norm_num, by norm_num, h1.2⟩,
    ⟨by decide, by decide, by decide, h2.2⟩⟩

/-- C6: for the argument 0, `l_sleep` asks `usleep` for exactly 0
microseconds, raises no error, returns 0 results and pushes nothing. -/
theorem l_sleep_zero (P : Platform) (L : lua_State)
    (h : lua_tonumberx P L 1 = some (.finite 0)) :
    (l_sleep P L).1 = .ok 0 ∧ (l_sleep P L).2.waits = L.waits ++ [0] ∧
      (l_sleep P L).2.stack = L.stack := by
  have hconv : double_to_useconds P (.finite 0) = 0 := by
    simp [double_to_useconds, truncToInt]
  rw [l_sleep_of_number P L _ h, hconv]
  simp [usleep]

/-- Witness for C6: `sleep(0)` after an earlier wait of 9 microseconds. -/
theorem l_sleep_zero_witness :
    lua_tonumberx samplePlatform ⟨[.number (.finite 0)], [], [9]⟩ 1 = some (.finite 0) ∧
      (l_sleep samplePlatform ⟨[.number (.finite 0)], [], [9]⟩).1 = .ok 0 ∧
      (l_sleep samplePlatform ⟨[.number (.finite 0)], [], [9]⟩).2.waits = [9, 0] := by
  have h := l_sleep_zero samplePlatform ⟨[.number (.finite 0)], [], [9]⟩ (by decide)
  exact ⟨by decide, h.1, h.2.1⟩

/-- C8: for a negative argument `d`, `l_sleep` raises no error, returns 0
results, and the one duration it hands to `usleep` is the conversion of `d`
itself to `useconds_t`, the same conversion every other argument gets: the
integer part of `d` when that is 0, the platform's out-of-range result
otherwise.  There is no branch on the sign and no clamping. -/
theorem l_sleep_negative (P : Platform) (L : lua_State) (d : LuaNumber)
    (h : lua_tonumberx P L 1 = some d) (hneg : d.isNegative = true) :
    (l_sleep P L).1 = .ok 0 ∧
      (l_sleep P L).2.waits = L.waits ++ [double_to_useconds P d] ∧
      double_to_useconds P d =
        (match d with
         | .finite q => if truncToInt q = 0 then 0 else P.convUndefined d % 2 ^ P.usecBits
         | _ => P.convUndefined d % 2 ^ P.usecBits) := by
  rw [l_sleep_of_number P L d h]
  refine ⟨rfl, by simp [usleep], ?_⟩
  cases d with
  | finite q =>
    have hq : q < 0 := by simpa [LuaNumber.isNegative] using hneg
    have hle : truncToInt q ≤ 0 := by
      have hc : ⌈q⌉ ≤ 0 := Int.ceil_le.mpr (by simpa using le_of_lt hq)
      simpa [truncToInt, not_le.mpr hq] using hc
    by_cases hz : truncToInt q = 0
    · simp [double_to_useconds, hz]
    · have hlt : ¬ (0 ≤ truncToInt q) := by omega
      simp [double_to_useconds, hz, hlt]
  | posInf => rfl
  | negInf => rfl
  | nan => rfl

/-- Witness for C8: on the sample platform `sleep(-1)` asks for 4294967295
microseconds, not for 0. -/
theorem l_sleep_negative_witness :
    lua_tonumberx samplePlatform ⟨[.number (.finite (-1))], [], []⟩ 1 = some (.finite (-1)) ∧
      (LuaNumber.finite (-1)).isNegative = true ∧
      (l_sleep samplePlatform ⟨[.number (.finite (-1))], [], []⟩).1 = .ok 0 ∧
      (l_sleep samplePlatform ⟨[.number (.finite (-1))], [], []⟩).2.waits = [4294967295] := by
  have h := l_sleep_negative samplePlatform ⟨[.number (.finite (-1))], [], []⟩ (.finite (-1))
    (by decide) (by decide)
  have e : double_to_useconds samplePlatform (.finite (-1)) = 4294967295 := by decide
  rw [e] at h
  exact ⟨by decide, by decide, h.1, h.2.1⟩

/-- C10: two calls of `l_sleep` whose frames hold the same value at index 1 (or
both hold none) end alike, whatever else their frames, heaps and records of
earlier waits contain: the same result count or the same argument error, and
the same list of newly requested waits.  Neither call changes stack or heap. -/
theorem l_sleep_depends_on_index_one (P : Platform) (L₁ L₂ : lua_State)
    (h : index2value L₁ 1 = index2value L₂ 1) :
    (l_sleep P L₁).1 = (l_sleep P L₂).1 ∧
      (∃ ws, (l_sleep P L₁).2.waits = L₁.waits ++ ws ∧
        (l_sleep P L₂).2.waits = L₂.waits ++ ws) ∧
      (l_sleep P L₁).2.stack = L₁.stack ∧ (l_sleep P L₁).2.heap = L₁.heap ∧
      (l_sleep P L₂).2.stack = L₂.stack ∧ (l_sleep P L₂).2.heap = L₂.heap := by
  have hnum : lua_tonumberx P L₁ 1 = lua_tonumberx P L₂ 1 := by simp [lua_tonumberx, h]
  have hty : lua_type L₁ 1 = lua_type L₂ 1 := by simp [lua_type, h]
  cases hd : lua_tonumberx P L₂ 1 with
  | none =>
    rw [l_sleep_of_no_number P L₁ (hnum.trans hd), l_sleep_of_no_number P L₂ hd, hty]
    exact ⟨rfl, ⟨[], by simp⟩, rfl, rfl, rfl, rfl⟩
  | some d =>
    rw [l_sleep_of_number P L₁ d (hnum.trans hd), l_sleep_of_number P L₂ d hd]
    exact ⟨rfl, ⟨[double_to_useconds P d], by simp [usleep]⟩, rfl, rfl, rfl, rfl⟩

/-- Witness for C10: `sleep(5)` in a fresh state, and `sleep(5, "x", nil)` after
the module was loaded and two waits were made. -/
theorem l_sleep_depends_on_index_one_witness :
    index2value ⟨[.number (.finite 5)], [], []⟩ 1 =
        index2value ⟨[.number (.finite 5), .string "x", .nil], [moduleTable], [7, 9]⟩ 1 ∧
      (l_sleep samplePlatform ⟨[.number (.finite 5)], [], []⟩).1 =
        (l_sleep samplePlatform
          ⟨[.number (.finite 5), .string "x", .nil], [moduleTable], [7, 9]⟩).1 := by
  have h := l_sleep_depends_on_index_one samplePlatform ⟨[.number (.finite 5)], [], []⟩
    ⟨[.number (.finite 5), .string "x", .nil], [moduleTable], [7, 9]⟩ (by decide)
  exact ⟨by decide, h.1⟩

/-- C9: `utils` has exactly two elements, `("sleep", l_sleep)` first and the
null sentinel last.  The loop of `luaL_setfuncs` over it registers exactly one
function and stops at the sentinel: run on the table `luaopen_utils` has just
created it leaves that table holding the single field `sleep = l_sleep`, with
the frame otherwise as it was; run on any state at all it either needs an
unmodelled part of the host, or finds a table without metatable on top and
makes the one assignment `sleep = l_sleep` in it, changing nothing else.  In
no case does it read past the end of the array. -/
theorem utils_registration :
    utils.length = 2 ∧ utils.head? = some ⟨some "sleep", some .l_sleep⟩ ∧
      utils.getLast? = some ⟨none, none⟩ ∧
      (∀ L : lua_State, luaL_setfuncs (lua_newtable L) utils 0 =
        .ok (1, { stack := L.stack ++ [.table L.heap.length],
                  heap := L.heap ++ [⟨none, [(.string "sleep", .cfunction .l_sleep)]⟩],
                  waits := L.waits })) ∧
      (∀ L : lua_State, luaL_setfuncs L utils 0 = .error .notModelled ∨
        ∃ r t, index2value L (-1) = some (.table r) ∧ L.heap.get? r = some t ∧
          t.metatable = none ∧
          luaL_setfuncs L utils 0 =
            .ok (1, { L with
              heap := heapStore L.heap r (rawset t (.string "sleep") (.cfunction .l_sleep)) })) := by
  refine ⟨rfl, rfl, rfl, fun L => luaL_setfuncs_utils L, fun L => ?_⟩
  simp only [luaL_setfuncs, utils, setfuncsLoop, if_true]
  rw [lua_setfield_pushed]
  cases hv : index2value L (-1) with
  | none => exact Or.inl rfl
  | some v =>
    cases v with
    | table r =>
      cases ht : L.heap.get? r with
      | none =>
        refine Or.inl ?_
        simp only [ht]
      | some t =>
        by_cases hm : t.metatable = none
        · refine Or.inr ⟨r, t, rfl, ht, hm, ?_⟩
          simp only [ht, hm, if_true]
        · refine Or.inl ?_
          simp only [ht, hm, if_false]
    | _ => exact Or.inl rfl

/-- C4: on every state `luaopen_utils` returns 1; it pushes one value, a
reference that named no table before the call; the table it now names has the
one key `"sleep"`, bound to `l_sleep`; the tables that existed before are as
they were, and no wait is requested. -/
theorem luaopen_utils_module_table (L : lua_State) :
    ∃ L1 t, luaopen_utils L = .ok (1, L1) ∧
      L1.stack = L.stack ++ [.table L.heap.length] ∧
      index2value L1 (-1) = some (.table L.heap.length) ∧
      L.heap.get? L.heap.length = none ∧
      L1.heap.get? L.heap.length = some t ∧
      t.keys = [.string "sleep"] ∧
      rawget t (.string "sleep") = .cfunction .l_sleep ∧
      (∀ k, rawget t k ≠ .nil ↔ k = .string "sleep") ∧
      L1.heap.take L.heap.length = L.heap ∧
      L1.waits = L.waits := by
  refine ⟨_, moduleTable, luaopen_utils_eq L, rfl, index2value_top _ _ _ _, by simp,
    heap_get_append _ _, rfl, by decide, ?_, ?_, rfl⟩
  · intro k
    by_cases hk : k = .string "sleep"
    · subst hk
      simp [rawget, moduleTable]
    · have hk2 : ¬ (LuaValue.string "sleep" = k) := fun e => hk e.symm
      simp [rawget, moduleTable, hk, hk2]
  · simp

/-- C7: `luaopen_utils` called twice on one host state, the second time on
whatever frame the host gives it, succeeds both times with one result; the two
tables returned are different references, each binding `"sleep"` to `l_sleep`;
and replacing the contents of either leaves the other as it was. -/
theorem luaopen_utils_twice (L : lua_State) (frame : List LuaValue) :
    ∃ L1 L2 r1 r2, luaopen_utils L = .ok (1, L1) ∧
      luaopen_utils { L1 with stack := frame } = .ok (1, L2) ∧
      index2value L1 (-1) = some (.table r1) ∧
      index2value L2 (-1) = some (.table r2) ∧
      r1 ≠ r2 ∧
      L2.heap.get? r1 = some moduleTable ∧
      L2.heap.get? r2 = some moduleTable ∧
      rawget moduleTable (.string "sleep") = .cfunction .l_sleep ∧
      (∀ t, (heapStore L2.heap r1 t).get? r2 = some moduleTable) ∧
      (∀ t, (heapStore L2.heap r2 t).get? r1 = some moduleTable) := by
  refine ⟨⟨L.stack ++ [.table L.heap.length], L.heap ++ [moduleTable], L.waits⟩,
    ⟨frame ++ [.table (L.heap.length + 1)], (L.heap ++ [moduleTable]) ++ [moduleTable], L.waits⟩,
    L.heap.length, L.heap.length + 1, luaopen_utils_eq L, ?_,
    index2value_top _ _ _ _, index2value_top _ _ _ _, by omega, ?_, ?_, by decide, ?_, ?_⟩
  · rw [luaopen_utils_eq]
    simp
  · simpa using heap_get_first_of_two L.heap moduleTable moduleTable
  · simpa using heap_get_second_of_two L.heap moduleTable moduleTable
  · intro t
    have e : (L.heap ++ [moduleTable]) ++ [moduleTable] = L.heap ++ [moduleTable, moduleTable] := by
      simp
    show (heapStore ((L.heap ++ [moduleTable]) ++ [moduleTable]) L.heap.length t).get?
      (L.heap.length + 1) = some moduleTable
    rw [e, heapStore_first_of_two, heap_get_second_of_two]
  · intro t
    have e : (L.heap ++ [moduleTable]) ++ [moduleTable] = L.heap ++ [moduleTable, moduleTable] := by
      simp
    show (heapStore ((L.heap ++ [moduleTable]) ++ [moduleTable]) (L.heap.length + 1) t).get?
      L.heap.length = some moduleTable
    rw [e, heapStore_second_of_two, heap_get_first_of_two]

end LuaSense
